import Mathlib

/-!
Shallow embedding of `microcord/__init__.py`: the rate limited HTTP client
(`HTTPClient.request` together with its helpers `_get_bucket`, `_get_lock`,
`_acquire`, `_lock_global` and `_unlock`), modelled as pure state passing
functions driven by an oracle of per attempt transport responses, plus a
temporal model of the global throttle gate (`_lock_global` clearing an
`asyncio.Event` and scheduling `set` with `loop.call_later`).

Conventions of the embedding:
 - Float valued header fields and delays are rationals (`Rat`).
 - A header or JSON body key that may be absent is an `Option`; `Option.getD`
   models `dict.get(key, default)`.
 - Raised Python exceptions are values of `Err`; an attempt returns an
   `Outcome` (return a response, raise, or fall through to the next loop
   iteration) and the whole call returns a `RunRes` where `fellThrough`
   models the implicit `return None` after the `for` loop exhausts.
 - Side effects (lock creation and acquisition, waiting on the gate, the
   network send, `Event.clear`, and every `loop.call_later` scheduling) are
   recorded in an event trace.
 - Byte streams backing file attachments are identified by an index into a
   list of stream sizes; the transport reads an attached stream to its end,
   so sending a multipart payload sets each referenced position to the
   stream size.
-/

namespace Microcord

/-- `BASE_URL` constant from the source. -/
def BASE_URL : String := "https://discord.com/api/v9"

/-- The rate limit relevant response headers, already parsed:
`rlResetAfter` is "X-RateLimit-Reset-After" (float seconds), `rlRemaining`
is "X-RateLimit-Remaining", `via` is the "Via" provenance header.
`none` models an absent header. -/
structure RespHeaders where
  rlResetAfter : Option Rat
  rlRemaining : Option Rat
  via : Option String
  deriving DecidableEq, Repr

/-- A transport response: the status, the headers, and the JSON body fields
the dispatcher reads on a 429 (`data.get("global", False)` and
`data.get("retry_after")`). `none` models an absent body key. -/
structure Response where
  status : Nat
  headers : RespHeaders
  bodyGlobal : Option Bool
  bodyRetryAfter : Option Rat
  deriving DecidableEq, Repr

/-- Python truthiness of `headers.get("Via")`: the header being absent
(`None`) or present with an empty value is falsy. -/
def viaFalsy : Option String → Bool
  | none => true
  | some s => s == ""

/-- Raised exceptions. `httpError` is `microcord.HTTPError` carrying the
response; `typeError` and `attributeError` are the builtin Python errors
with a short description of their origin. -/
inductive Err where
  | httpError (response : Response)
  | typeError (msg : String)
  | attributeError (attr : String)
  deriving DecidableEq, Repr

/-- `microcord.File`: a stream (identified by its index into the list of
stream sizes) plus a filename. The class defines no other method — in
particular no `seek`. -/
structure File where
  file : Nat
  filename : String
  deriving DecidableEq, Repr

/-- An element of the `files` keyword argument: either an actual
`microcord.File` instance or any other Python value, remembered by its
class qualname (which only feeds the `TypeError` message). -/
inductive FileArg where
  | file (f : File)
  | other (qualname : String)
  deriving DecidableEq, Repr

/-- `isinstance(file, File)`. -/
def FileArg.isFile : FileArg → Bool
  | .file _ => true
  | .other _ => false

/-- A field value of an `aiohttp.FormData`: a named file part referencing a
stream, or a plain string field (flattened JSON body field). -/
inductive FormValue where
  | fileRef (streamId : Nat) (filename : String)
  | str (value : String)
  deriving DecidableEq, Repr

/-- `aiohttp.FormData`: an ordered list of named fields. -/
structure FormData where
  fields : List (String × FormValue)
  deriving DecidableEq, Repr

/-- The keyword arguments of `request` that the dispatcher reads or writes.
`kwargs.pop` sets the corresponding field to `none`; `kwargs["data"] = fd`
sets `data`. The dict object is shared across all loop iterations. -/
structure Kwargs where
  files : Option (List FileArg)
  json : Option (List (String × String))
  data : Option FormData
  reason : Option String
  deriving DecidableEq, Repr

/-- Observable side effects of an attempt, in program order:
lazy lock creation and `lock.acquire` plus `self._global.wait()` from
`_acquire`; the network send; `self._global.clear()` and
`loop.call_later(delay, self._global.set)` from `_lock_global`; and
`loop.call_later(delay, lock.release)` from `_unlock`. -/
inductive Event where
  | lockCreate (bucket : String)
  | lockAcquire (bucket : String)
  | gateWait
  | send (method url : String) (headers : List (String × String))
      (data : Option FormData) (json : Option (List (String × String)))
  | gateClear
  | callLaterGateSet (delay : Rat)
  | callLaterRelease (bucket : String) (delay : Rat)
  deriving DecidableEq, Repr

/-- Mutable state threaded through the call: the shared kwargs dict, the
position of every attachment stream, whether this call currently holds its
bucket lock, the `asyncio.Event` state of the global gate, and the keys
present in `self._buckets`. -/
structure St where
  kwargs : Kwargs
  pos : List Nat
  locked : Bool
  gateSet : Bool
  buckets : List String
  deriving DecidableEq, Repr

/-- Per attempt outcome of the loop body: `return response`, an exception
propagating out of `request`, or control reaching the next iteration. -/
inductive Outcome where
  | ret (response : Response)
  | err (e : Err)
  | next
  deriving DecidableEq, Repr

/-- Result of one attempt: its outcome, the state after it, and the events
it emitted. -/
structure AttemptResult where
  out : Outcome
  st : St
  evs : List Event
  deriving DecidableEq, Repr

/-- Result of a whole `request` call. `fellThrough` is the implicit
`return None` when the `for` loop ends without `return` or `raise`. -/
inductive RunRes where
  | retOk (response : Response)
  | raised (e : Err)
  | fellThrough
  deriving DecidableEq, Repr

/-- Result of the call together with final state and full event trace. -/
structure RunResult where
  res : RunRes
  st : St
  evs : List Event
  deriving DecidableEq, Repr

/-- The per call constants: the arguments of `request`, the client url,
the stream sizes, the oracle giving the transport response of attempt `i`,
the bucket key, and the `request_headers` dict built before the loop. -/
structure Ctx where
  method : String
  path : String
  pathParams : List (String × String)
  retries : Nat
  url : String
  sizes : List Nat
  responses : Nat → Response
  bucket : String
  requestHeaders : List (String × String)

/-- `d.get(k, dflt)` on a string dict. -/
def dictGetD (d : List (String × String)) (k dflt : String) : String :=
  match d.find? (fun p => p.1 == k) with
  | some p => p.2
  | none => dflt

/-- The f-string of `_get_bucket`. -/
def bucketKey (path : String) (d : List (String × String)) : String :=
  path ++ "/" ++ dictGetD d "channel_id" "" ++ ":" ++ dictGetD d "guild_id" ""
    ++ ":" ++ dictGetD d "webhook_id" ""

/-- `HTTPClient._get_bucket(path, params)`. With `params = None` — the
default of `request` — the very first expression `params.get("channel_id", "")`
raises `AttributeError` (`NoneType` has no attribute `get`). -/
def get_bucket (path : String) (params : Option (List (String × String))) :
    Except Err String :=
  match params with
  | none => .error (.attributeError "get")
  | some d => .ok (bucketKey path d)

/-- `path.format(**path_params)`: substitute each named placeholder.
(A placeholder with no matching key, which would raise `KeyError` in
Python, is not modelled; no claim touches it.) -/
def formatPath (path : String) (params : List (String × String)) : String :=
  params.foldl (fun acc kv => acc.replace ("\x7b" ++ kv.1 ++ "\x7d") kv.2) path

/-- The transport reads every stream referenced by a multipart payload from
its current position to its end, leaving the position at the stream size. -/
def consumeStreams (sizes : List Nat) (fd : FormData) (pos : List Nat) :
    List Nat :=
  fd.fields.foldl (fun p f =>
    match f.2 with
    | .fileRef sid _ => p.set sid (sizes.getD sid 0)
    | .str _ => p) pos

/-- The `for fn, file in enumerate(files)` loop: the first element that is
not a `microcord.File` raises `TypeError`; otherwise each file becomes a
named `file_{fn}` part. -/
def addFileFields : Nat → List FileArg → Except Err (List (String × FormValue))
  | _, [] => .ok []
  | _, FileArg.other q :: _ =>
      .error (.typeError ("files must be a list of microcord.File, not " ++ q))
  | fn, FileArg.file f :: rest => do
      let tail ← addFileFields (fn + 1) rest
      .ok (("file_" ++ toString fn, FormValue.fileRef f.file f.filename) :: tail)

/-- The `finally: self._unlock(bucket, rl_sleep_for)` clause. `_unlock`
checks `lock.locked()` and then calls `loop.call_later(delay, lock.release)`:
the release is always deferred to the scheduler (a zero delay still goes
through `call_later`), so the lock stays held here. `rl_sleep_for = None`
makes `call_later` raise `TypeError` (`self.time() + None`), which — being
raised inside `finally` — replaces the in flight outcome, and no release is
scheduled. -/
def finishAttempt (cx : Ctx) (out : Outcome) (rl : Option Rat) (st : St)
    (evs : List Event) : AttemptResult :=
  if st.locked then
    match rl with
    | some d => ⟨out, st, evs ++ [Event.callLaterRelease cx.bucket d]⟩
    | none => ⟨Outcome.err (.typeError "unsupported operand type for +: float and NoneType"), st, evs⟩
  else
    ⟨out, st, evs⟩

/-- Shape of the `elif status >= 500` backoff computation, abstracted so the
dispatcher can be compared with a variant lacking the branch. -/
abbrev Backoff := Nat → Nat → Option Rat → Option Rat

/-- The `elif status >= 500: rl_sleep_for = 1 + i * 2` branch of the
source, as a function of the status, the attempt index and the previously
assigned `rl_sleep_for`. -/
def backoff : Backoff := fun status i rl =>
  if 500 ≤ status then some (1 + (i : Rat) * 2) else rl

/-- A `Backoff` that omits the `status >= 500` branch entirely. -/
def noBackoff : Backoff := fun _ _ rl => rl

/-- `rl_sleep_for` right after the header inspection of an attempt: it was
initialised to `0` and the line
`if status != 429 and rl_remaining == 0: rl_sleep_for = rl_reset_after`
(with `rl_reset_after = float(headers.get("X-RateLimit-Reset-After", 0))`
and `rl_remaining = float(headers.get("X-RateLimit-Remaining", 1))`)
may overwrite it. -/
def initialSleep (r : Response) : Option Rat :=
  if r.status ≠ 429 ∧ r.headers.rlRemaining.getD 1 = 0 then
    some (r.headers.rlResetAfter.getD 0)
  else some 0

/-- The response interpretation of one attempt, from
`status = response.status` to the end of the loop body, ending in the
`finally` clause. The delay argument of `finishAttempt` tracks
`rl_sleep_for : Option Rat` where `none` is Python `None` (a missing
`retry_after` body key). On a global 429, `_lock_global` first clears the
gate, then calls `call_later(delay, set)`; with `delay = None` the `clear`
has happened but `call_later` raises `TypeError`. The `if i == retries - 1`
reset to `0` runs after the global or backoff branch, before `finally`. -/
def handleResponseWith (bk : Backoff) (cx : Ctx) (i : Nat) (r : Response)
    (st : St) (evs : List Event) : AttemptResult :=
  if 200 ≤ r.status ∧ r.status < 300 then
    finishAttempt cx (.ret r) (initialSleep r) st evs
  else if r.status = 429 then
    if viaFalsy r.headers.via then
      finishAttempt cx (.err (.httpError r)) (initialSleep r) st evs
    else if r.bodyGlobal.getD false then
      match r.bodyRetryAfter with
      | none =>
          finishAttempt cx
            (.err (.typeError "unsupported operand type for +: float and NoneType"))
            none { st with gateSet := false } (evs ++ [Event.gateClear])
      | some d =>
          finishAttempt cx .next
            (if i = cx.retries - 1 then some 0 else some d)
            { st with gateSet := false }
            (evs ++ [Event.gateClear, Event.callLaterGateSet d])
    else
      finishAttempt cx .next
        (if i = cx.retries - 1 then some 0 else bk r.status i r.bodyRetryAfter)
        st evs
  else
    finishAttempt cx .next (initialSleep r) st evs

/-- The state after the transport sends the payload: every stream
referenced by the multipart body is read to its end. -/
def sendSt (cx : Ctx) (st : St) : St :=
  { st with pos := match st.kwargs.data with
    | some fd => consumeStreams cx.sizes fd st.pos
    | none => st.pos }

/-- The recorded network send of
`self._session.request(method, self._url + path.format(**path_params),
headers=request_headers, **kwargs)`. -/
def sendEv (cx : Ctx) (st : St) : Event :=
  Event.send cx.method (cx.url ++ formatPath cx.path cx.pathParams)
    cx.requestHeaders st.kwargs.data st.kwargs.json

/-- The network send followed by the response interpretation: the transport
consumes the streams of the payload, the send is recorded, and the oracle
supplies the response of attempt `i`. -/
def sendAndHandleWith (bk : Backoff) (cx : Ctx) (i : Nat) (st : St)
    (evs : List Event) : AttemptResult :=
  handleResponseWith bk cx i (cx.responses i) (sendSt cx st)
    (evs ++ [sendEv cx st])

/-- The state right after `await self._acquire(bucket)` and
`kwargs.pop("files", ...)`: the bucket key registered in `self._buckets`
(created on first use), the lock held, the `files` key gone. -/
def postAcquire (cx : Ctx) (st0 : St) : St :=
  { st0 with
    buckets := if !(st0.buckets.contains cx.bucket) then
        st0.buckets ++ [cx.bucket] else st0.buckets,
    locked := true,
    kwargs := { st0.kwargs with files := none } }

/-- The events of the acquire phase: lazy creation in `_get_lock`, then
`lock.acquire()`, then `self._global.wait()`. -/
def acquireEvs (cx : Ctx) (st0 : St) : List Event :=
  (if !(st0.buckets.contains cx.bucket) then [Event.lockCreate cx.bucket] else [])
    ++ [Event.lockAcquire cx.bucket, Event.gateWait]

/-- One iteration `i` of the `for i in range(retries)` loop of
`HTTPClient.request`:
`await self._acquire(bucket)` (lazy lock creation, `lock.acquire`,
`self._global.wait()`), `rl_sleep_for = 0`, then the `try` body.
`kwargs.pop("files", [])` removes the key, so a truthy `files` list is only
ever seen on the iteration that still finds it in the dict. When the block
runs with `i` truthy, `file.seek(0)` is attribute lookup `seek` on a
`microcord.File` instance, which defines no such attribute:
`AttributeError`. Otherwise the multipart payload is built (first non
`File` element raising `TypeError`), the `json` kwarg is popped and
flattened into extra form fields, and `kwargs["data"]` is set to the form. -/
def attemptStepWith (bk : Backoff) (cx : Ctx) (i : Nat) (st0 : St) :
    AttemptResult :=
  match st0.kwargs.files with
  | none => sendAndHandleWith bk cx i (postAcquire cx st0) (acquireEvs cx st0)
  | some [] => sendAndHandleWith bk cx i (postAcquire cx st0) (acquireEvs cx st0)
  | some (f :: rest) =>
    if i ≠ 0 then
      finishAttempt cx (.err (.attributeError "seek")) (some 0)
        (postAcquire cx st0) (acquireEvs cx st0)
    else
      match addFileFields 0 (f :: rest) with
      | .error e =>
          finishAttempt cx (.err e) (some 0) (postAcquire cx st0)
            (acquireEvs cx st0)
      | .ok fileFields =>
          sendAndHandleWith bk cx i
            { postAcquire cx st0 with
              kwargs.json := none,
              kwargs.data := some ⟨fileFields ++
                (st0.kwargs.json.getD []).map
                  (fun kv => (kv.1, FormValue.str kv.2))⟩ }
            (acquireEvs cx st0)

/-- The loop body of `request` with the original `elif status >= 500`
backoff branch. -/
def attemptStep : Ctx → Nat → St → AttemptResult := attemptStepWith backoff

/-- The loop body of `request` with the `elif status >= 500` branch
removed. -/
def attemptStepNoBackoff : Ctx → Nat → St → AttemptResult :=
  attemptStepWith noBackoff

/-- The `for i in range(retries)` loop, from iteration `i` with `fuel`
iterations remaining: a `return` or a raised exception ends the call, a
fall through continues; exhausting the range ends the call with no result
(Python implicitly returns `None`). -/
def runFromWith (step : Ctx → Nat → St → AttemptResult) (cx : Ctx) :
    Nat → Nat → St → RunResult
  | _, 0, st => ⟨.fellThrough, st, []⟩
  | i, fuel + 1, st =>
    let a := step cx i st
    match a.out with
    | .ret r => ⟨.retOk r, a.st, a.evs⟩
    | .err e => ⟨.raised e, a.st, a.evs⟩
    | .next =>
      let rest := runFromWith step cx (i + 1) fuel a.st
      ⟨rest.res, rest.st, a.evs ++ rest.evs⟩

/-- The whole retry loop of `request`. -/
def run (cx : Ctx) (st : St) : RunResult :=
  runFromWith attemptStep cx 0 cx.retries st

/-- `HTTPClient.request(method, path, path_params, retries, **kwargs)`:
`bucket = self._get_bucket(path, path_params)` runs first (raising
`AttributeError` when `path_params` is left at its `None` default, before
any lock exists or any I/O happens), then the audit reason is popped into
`request_headers`, then the loop runs. -/
def requestCall (method path : String)
    (pathParams : Option (List (String × String))) (retries : Nat)
    (url : String) (kwargs : Kwargs) (sizes : List Nat)
    (responses : Nat → Response) (st0 : St) : RunResult :=
  match get_bucket path pathParams with
  | .error e => ⟨.raised e, st0, []⟩
  | .ok bucket =>
    let requestHeaders : List (String × String) :=
      match kwargs.reason with
      | some rsn => [("X-Audit-Log-Reason", rsn)]
      | none => []
    let kwargs2 : Kwargs := { kwargs with reason := none }
    let cx : Ctx := ⟨method, path, pathParams.getD [], retries, url, sizes,
      responses, bucket, requestHeaders⟩
    runFromWith attemptStep cx 0 retries { st0 with kwargs := kwargs2 }

/-- Whether an event is the network send. -/
def Event.isSend : Event → Bool
  | .send _ _ _ _ _ => true
  | _ => false

/-- Number of network sends in a trace. -/
def countSend (evs : List Event) : Nat := (evs.filter Event.isSend).length

/-- The preconditions under which attempt `i` reaches the network send:
the (already possibly popped) `files` kwarg is absent or empty, or this is
attempt 0 and every element is a `microcord.File`. -/
def filesOk (i : Nat) (k : Kwargs) : Bool :=
  match k.files with
  | none => true
  | some fs => fs.isEmpty || (i == 0 && fs.all FileArg.isFile)

/-! ### Temporal model of the global throttle gate

`_lock_global(d)` executed at absolute time `τ` performs
`self._global.clear()` and `self._loop.call_later(d, self._global.set)`.
Nothing ever cancels a scheduled timer, so every close leaves its own
`set` timer behind. The gate (an `asyncio.Event`, initially set) is open
at time `t` iff every clear issued by time `t` has been followed by some
timer firing in the interval from that clear (exclusive) to `t`
(inclusive): equivalently, some timer fired after the latest clear. -/

/-- Gate state at time `t` after the closes `(τ, d)` (clear at `τ`, `set`
scheduled at `τ + d`): `true` iff the event is set. -/
def gateOpenAt (closes : List (Rat × Rat)) (t : Rat) : Bool :=
  let past := closes.filter (fun c => decide (c.1 ≤ t))
  past.all (fun c =>
    past.any (fun c2 => decide (c.1 < c2.1 + c2.2 ∧ c2.1 + c2.2 ≤ t)))

/-- The `set` timers scheduled by time `t` and not yet fired. -/
def pendingTimers (closes : List (Rat × Rat)) (t : Rat) : List Rat :=
  (closes.filter (fun c => decide (c.1 ≤ t ∧ t < c.1 + c.2))).map
    (fun c => c.1 + c.2)

/-! ### Helper lemmas for the proofs -/

/-- When every supplied file is a `microcord.File`, the enumerate loop
builds the part list without raising. -/
theorem addFileFields_ok (fs : List FileArg)
    (h : ∀ f ∈ fs, f.isFile = true) :
    ∀ n, ∃ flds, addFileFields n fs = .ok flds := by
  induction fs with
  | nil => intro n; exact ⟨[], rfl⟩
  | cons f rest ih =>
    intro n
    match f with
    | .other q =>
      have := h (.other q) (List.mem_cons_self _ _)
      simp [FileArg.isFile] at this
    | .file g =>
      obtain ⟨tl, htl⟩ := ih (fun x hx => h x (List.mem_cons_of_mem _ hx)) (n + 1)
      exact ⟨("file_" ++ toString n, FormValue.fileRef g.file g.filename) :: tl,
        by simp only [addFileFields, htl]; rfl⟩

/-- A list of files containing a non `File` element makes the enumerate
loop raise `TypeError`. -/
theorem addFileFields_err (fs : List FileArg)
    (h : ∃ f ∈ fs, f.isFile = false) :
    ∀ n, ∃ m, addFileFields n fs = .error (.typeError m) := by
  induction fs with
  | nil => simp at h
  | cons f rest ih =>
    intro n
    match f with
    | .other q => exact ⟨_, rfl⟩
    | .file g =>
      obtain ⟨x, hx, hxf⟩ := h
      rcases List.mem_cons.mp hx with h1 | h2
      · subst h1; simp [FileArg.isFile] at hxf
      · obtain ⟨m, hm⟩ := ih ⟨x, h2, hxf⟩ (n + 1)
        exact ⟨m, by simp only [addFileFields, hm]; rfl⟩

/-- The acquire phase emits no network send. -/
theorem countSend_acquireEvs (cx : Ctx) (st0 : St) :
    countSend (acquireEvs cx st0) = 0 := by
  unfold acquireEvs
  cases st0.buckets.contains cx.bucket <;> simp [countSend, Event.isSend]

/-- Under `filesOk`, the attempt reaches the network send: it equals
`sendAndHandleWith` applied to a state holding the lock, with the `files`
key popped, after a sendless acquire prefix. -/
theorem attemptStep_reaches_send (bk : Backoff) (cx : Ctx) (i : Nat)
    (st : St) (h : filesOk i st.kwargs = true) :
    ∃ st2 evs1, attemptStepWith bk cx i st = sendAndHandleWith bk cx i st2 evs1 ∧
      st2.locked = true ∧ st2.kwargs.files = none ∧ countSend evs1 = 0 := by
  rcases hf : st.kwargs.files with _ | fs
  · refine ⟨postAcquire cx st, acquireEvs cx st, ?_, rfl, rfl,
      countSend_acquireEvs cx st⟩
    simp only [attemptStepWith, hf]
  · match fs with
    | [] =>
      refine ⟨postAcquire cx st, acquireEvs cx st, ?_, rfl, rfl,
        countSend_acquireEvs cx st⟩
      simp only [attemptStepWith, hf]
    | f :: rest =>
      have h' := h
      simp only [filesOk, hf] at h'
      rw [Bool.or_eq_true] at h'
      rcases h' with h' | h'
      · simp at h'
      · rw [Bool.and_eq_true] at h'
        have hi : i = 0 := by simpa using h'.1
        have hall : ∀ x ∈ f :: rest, x.isFile = true := by
          have h2 := h'.2; rwa [List.all_eq_true] at h2
        obtain ⟨flds, hflds⟩ := addFileFields_ok (f :: rest) hall 0
        subst hi
        refine ⟨{ postAcquire cx st with
            kwargs.json := none,
            kwargs.data := some (FormData.mk (flds ++
              (st.kwargs.json.getD []).map (fun kv => (kv.1, FormValue.str kv.2)))) },
          acquireEvs cx st, ?_, rfl, rfl, countSend_acquireEvs cx st⟩
        simp only [attemptStepWith, hf, hflds]
        rfl

/-- `finishAttempt` returns its state unchanged: the scheduled release is
deferred, never performed inline. -/
theorem finishAttempt_st (cx : Ctx) (o : Outcome) (rl : Option Rat)
    (st : St) (evs : List Event) : (finishAttempt cx o rl st evs).st = st := by
  cases rl <;> unfold finishAttempt <;> split_ifs <;> rfl

/-- `handleResponseWith` never touches `kwargs`. -/
theorem handleResponse_kwargs (bk : Backoff) (cx : Ctx) (i : Nat)
    (r : Response) (st : St) (evs : List Event) :
    (handleResponseWith bk cx i r st evs).st.kwargs = st.kwargs := by
  unfold handleResponseWith
  cases hr : r.bodyRetryAfter <;> split_ifs <;>
    simp [finishAttempt_st, apply_ite AttemptResult.st, apply_ite St.kwargs]

/-- A 429 whose provenance header is falsy raises `HTTPError` carrying the
response; `rl_sleep_for` is still `0`, so the deferred release uses delay 0. -/
theorem handleResponse_429_noauth (bk : Backoff) (cx : Ctx) (i : Nat)
    (r : Response) (st : St) (evs : List Event) (hstat : r.status = 429)
    (hvia : viaFalsy r.headers.via = true) (hl : st.locked = true) :
    handleResponseWith bk cx i r st evs =
      ⟨.err (.httpError r), st, evs ++ [Event.callLaterRelease cx.bucket 0]⟩ := by
  simp [handleResponseWith, initialSleep, finishAttempt, hstat, hvia, hl]

/-- An `ite` of two present options is a present `ite`. -/
theorem ite_some {α : Type} (c : Prop) [Decidable c] (a b : α) :
    (if c then some a else some b) = some (if c then a else b) := by
  split_ifs <;> rfl

/-- `finishAttempt` with the lock held and a non `None` delay appends the
deferred release. -/
theorem finishAttempt_some_release (cx : Ctx) (o : Outcome) (d : Rat)
    (st : St) (evs : List Event) (hl : st.locked = true) :
    finishAttempt cx o (some d) st evs =
      ⟨o, st, evs ++ [Event.callLaterRelease cx.bucket d]⟩ := by
  simp [finishAttempt, hl]

/-- The last element of a list ending in `a` is `a`. -/
theorem getLast?_snoc {α : Type} (l : List α) (a : α) :
    (l ++ [a]).getLast? = some a := by
  rw [List.getLast?_append_cons]
  rfl

/-- Appending on the left preserves a known last element. -/
theorem getLast?_append_right {α : Type} (l1 l2 : List α) (a : α)
    (h : l2.getLast? = some a) : (l1 ++ l2).getLast? = some a := by
  cases l2 with
  | nil => simp at h
  | cons b t => rw [List.getLast?_append_cons]; exact h

/-- `sendAndHandleWith` never touches `kwargs`. -/
theorem sendAndHandle_kwargs (bk : Backoff) (cx : Ctx) (i : Nat) (st : St)
    (evs : List Event) :
    (sendAndHandleWith bk cx i st evs).st.kwargs = st.kwargs := by
  unfold sendAndHandleWith
  rw [handleResponse_kwargs]
  rfl

/-- Every attempt leaves the `files` key popped from the kwargs dict. -/
theorem attemptStep_files_none (bk : Backoff) (cx : Ctx) (i : Nat) (st : St) :
    (attemptStepWith bk cx i st).st.kwargs.files = none := by
  rcases hf : st.kwargs.files with _ | fs
  · simp only [attemptStepWith, hf]
    rw [sendAndHandle_kwargs]
    rfl
  · match fs with
    | [] =>
      simp only [attemptStepWith, hf]
      rw [sendAndHandle_kwargs]
      rfl
    | f :: rest =>
      simp only [attemptStepWith, hf]
      by_cases hi : i ≠ 0
      · rw [if_pos hi, finishAttempt_st]
        rfl
      · rw [if_neg hi]
        rcases haf : addFileFields 0 (f :: rest) with e | flds
        · rw [finishAttempt_st]
          rfl
        · rw [sendAndHandle_kwargs]
          rfl

/-- A raising attempt ends the loop at once: the remaining iterations never
run, whatever fuel remains. -/
theorem runFromWith_err (step : Ctx → Nat → St → AttemptResult) (cx : Ctx)
    (i fuel : Nat) (st : St) (e : Err) (h : (step cx i st).out = .err e) :
    runFromWith step cx i (fuel + 1) st =
      ⟨.raised e, (step cx i st).st, (step cx i st).evs⟩ := by
  simp only [runFromWith, h]

/-- A returning attempt ends the loop at once with its response. -/
theorem runFromWith_ret (step : Ctx → Nat → St → AttemptResult) (cx : Ctx)
    (i fuel : Nat) (st : St) (r : Response) (h : (step cx i st).out = .ret r) :
    runFromWith step cx i (fuel + 1) st =
      ⟨.retOk r, (step cx i st).st, (step cx i st).evs⟩ := by
  simp only [runFromWith, h]

/-- A falling through attempt hands control to the next iteration. -/
theorem runFromWith_next (step : Ctx → Nat → St → AttemptResult) (cx : Ctx)
    (i fuel : Nat) (st : St) (h : (step cx i st).out = .next) :
    runFromWith step cx i (fuel + 1) st =
      ⟨(runFromWith step cx (i + 1) fuel (step cx i st).st).res,
       (runFromWith step cx (i + 1) fuel (step cx i st).st).st,
       (step cx i st).evs ++ (runFromWith step cx (i + 1) fuel (step cx i st).st).evs⟩ := by
  simp only [runFromWith, h]

/-- The attempt after a send on an unauthoritative 429. -/
theorem sendAndHandle_429_noauth (bk : Backoff) (cx : Ctx) (i : Nat) (st : St)
    (evs : List Event) (hstat : (cx.responses i).status = 429)
    (hvia : viaFalsy (cx.responses i).headers.via = true)
    (hl : st.locked = true) :
    (sendAndHandleWith bk cx i st evs).out =
        .err (.httpError (cx.responses i)) ∧
      countSend (sendAndHandleWith bk cx i st evs).evs = countSend evs + 1 := by
  unfold sendAndHandleWith
  rw [handleResponse_429_noauth bk cx i _ _ _ hstat hvia
    (show (sendSt cx st).locked = true from hl)]
  refine ⟨rfl, ?_⟩
  simp [countSend, List.filter_append, Event.isSend, sendEv]

/-- `rl_sleep_for` is never `None` before the 429 body is read: it starts
as `0` and the header branch writes a float. -/
theorem initialSleep_isSome (r : Response) : ∃ d, initialSleep r = some d := by
  unfold initialSleep
  split_ifs <;> exact ⟨_, rfl⟩

/-- An authoritative global 429 with a `retry_after` value: the gate is
cleared, its reopening is scheduled after `d`, the attempt falls through to
the next iteration, and the bucket release is scheduled after `d` (or `0`
on the last allowed attempt). -/
theorem handleResponse_429_global (bk : Backoff) (cx : Ctx) (i : Nat)
    (r : Response) (st : St) (evs : List Event) (d : Rat)
    (hstat : r.status = 429) (hvia : viaFalsy r.headers.via = false)
    (hglob : r.bodyGlobal = some true) (hra : r.bodyRetryAfter = some d)
    (hl : st.locked = true) :
    handleResponseWith bk cx i r st evs =
      ⟨.next, { st with gateSet := false },
        evs ++ [Event.gateClear, Event.callLaterGateSet d,
          Event.callLaterRelease cx.bucket (if i = cx.retries - 1 then 0 else d)]⟩ := by
  have he : (if i = cx.retries - 1 then (some 0 : Option Rat) else some d) =
      some (if i = cx.retries - 1 then 0 else d) := ite_some _ _ _
  simp [handleResponseWith, hstat, hvia, hglob, hra, he,
    finishAttempt_some_release, hl]

/-- A response that is not a 429 and whose "remaining" header reads `0`:
the deferred bucket release uses the "reset-after" header value, and a 2xx
is returned while a non 2xx falls through. -/
theorem handleResponse_success_throttle (bk : Backoff) (cx : Ctx) (i : Nat)
    (r : Response) (st : St) (evs : List Event) (ra : Rat)
    (hstat : r.status ≠ 429) (hrem : r.headers.rlRemaining = some 0)
    (hra : r.headers.rlResetAfter = some ra) (hl : st.locked = true) :
    handleResponseWith bk cx i r st evs =
      ⟨if 200 ≤ r.status ∧ r.status < 300 then .ret r else .next, st,
        evs ++ [Event.callLaterRelease cx.bucket ra]⟩ := by
  have h0 : initialSleep r = some ra := by
    simp [initialSleep, hstat, hrem, hra]
  by_cases h2 : 200 ≤ r.status ∧ r.status < 300
  · simp [handleResponseWith, h2, h0, finishAttempt_some_release, hl]
  · simp [handleResponseWith, h2, hstat, h0, finishAttempt_some_release, hl]

/-- As long as a 429 body read for an authoritative 429 carries a
`retry_after` value, the interpretation of any response ends by scheduling
the deferred bucket release, and the lock is still held when the attempt
ends (the release itself only happens later, on the scheduler). -/
theorem handleResponse_release (cx : Ctx) (i : Nat) (r : Response) (st : St)
    (evs : List Event) (hl : st.locked = true)
    (hra : r.status = 429 → viaFalsy r.headers.via = false →
      (r.bodyRetryAfter).isSome = true) :
    ∃ d, (handleResponseWith backoff cx i r st evs).evs.getLast? =
        some (Event.callLaterRelease cx.bucket d) ∧
      (handleResponseWith backoff cx i r st evs).st.locked = true := by
  obtain ⟨d0, hd0⟩ := initialSleep_isSome r
  unfold handleResponseWith
  by_cases h2 : 200 ≤ r.status ∧ r.status < 300
  · rw [if_pos h2, hd0, finishAttempt_some_release _ _ _ _ _ hl]
    exact ⟨d0, getLast?_snoc _ _, hl⟩
  · rw [if_neg h2]
    by_cases h429 : r.status = 429
    · rw [if_pos h429]
      by_cases hv : viaFalsy r.headers.via = true
      · rw [if_pos hv, hd0, finishAttempt_some_release _ _ _ _ _ hl]
        exact ⟨d0, getLast?_snoc _ _, hl⟩
      · have hv' : viaFalsy r.headers.via = false := by simpa using hv
        obtain ⟨d1, hd1⟩ := Option.isSome_iff_exists.mp (hra h429 hv')
        rw [if_neg hv]
        by_cases hg : r.bodyGlobal.getD false = true
        · rw [if_pos hg]
          simp only [hd1, ite_some,
            finishAttempt_some_release _ _ _ _ _
              (show ({ st with gateSet := false } : St).locked = true from hl)]
          exact ⟨_, getLast?_snoc _ _, hl⟩
        · rw [if_neg hg, h429, hd1]
          have hb : backoff 429 i (some d1) = some d1 := by
            simp [backoff]
          rw [hb, ite_some, finishAttempt_some_release _ _ _ _ _ hl]
          exact ⟨_, getLast?_snoc _ _, hl⟩
    · rw [if_neg h429, hd0, finishAttempt_some_release _ _ _ _ _ hl]
      exact ⟨d0, getLast?_snoc _ _, hl⟩

/-- An authoritative 429 carrying `retry_after` (global or not) makes the
attempt fall through to the next iteration, with the deferred release
scheduled after `retry_after` — or after `0` on the last allowed attempt. -/
theorem handleResponse_429_auth_retry (cx : Ctx) (i : Nat) (r : Response)
    (st : St) (evs : List Event) (d : Rat) (hstat : r.status = 429)
    (hvia : viaFalsy r.headers.via = false) (hra : r.bodyRetryAfter = some d)
    (hl : st.locked = true) :
    (handleResponseWith backoff cx i r st evs).out = .next ∧
    (handleResponseWith backoff cx i r st evs).evs.getLast? =
      some (Event.callLaterRelease cx.bucket
        (if i = cx.retries - 1 then 0 else d)) := by
  by_cases hg : r.bodyGlobal.getD false = true
  · have hglob : r.bodyGlobal = some true := by
      rcases hb : r.bodyGlobal with _ | b
      · rw [hb] at hg; simp at hg
      · rw [hb] at hg; simp at hg; rw [hg]
    rw [handleResponse_429_global backoff cx i r st evs d hstat hvia hglob hra hl]
    refine ⟨rfl, ?_⟩
    show (evs ++ [Event.gateClear, Event.callLaterGateSet d,
      Event.callLaterRelease cx.bucket _]).getLast? = _
    rw [List.getLast?_append_cons]
    rfl
  · unfold handleResponseWith
    rw [if_neg (by rw [hstat]; omega), if_pos hstat,
      if_neg (by rw [hvia]; simp), if_neg hg, hstat, hra]
    have hb : backoff 429 i (some d) = some d := by simp [backoff]
    rw [hb, ite_some, finishAttempt_some_release _ _ _ _ _ hl]
    exact ⟨rfl, getLast?_snoc _ _⟩

/-! ### Claim theorems -/

/-- C1: a 429 response whose headers lack the provenance header ("Via")
makes the call raise `HTTPError` carrying that very response on the same
attempt; the loop performs no further attempt — however much retry budget
remains, exactly one network send happens from this attempt on. -/
theorem c1_unauthoritative_429_fails_immediately (cx : Ctx) (i fuel : Nat)
    (st : St) (hstat : (cx.responses i).status = 429)
    (hvia : (cx.responses i).headers.via = none)
    (hfiles : filesOk i st.kwargs = true) :
    (attemptStep cx i st).out = .err (.httpError (cx.responses i)) ∧
    (runFromWith attemptStep cx i (fuel + 1) st).res =
      .raised (.httpError (cx.responses i)) ∧
    countSend (runFromWith attemptStep cx i (fuel + 1) st).evs = 1 := by
  obtain ⟨st2, evs1, heq, hl, -, hcnt⟩ :=
    attemptStep_reaches_send backoff cx i st hfiles
  have hv : viaFalsy (cx.responses i).headers.via = true := by
    rw [hvia]; rfl
  have hout : (attemptStep cx i st).out = .err (.httpError (cx.responses i)) := by
    show (attemptStepWith backoff cx i st).out = _
    rw [heq]
    exact (sendAndHandle_429_noauth backoff cx i st2 evs1 hstat hv hl).1
  refine ⟨hout, ?_, ?_⟩
  · rw [runFromWith_err attemptStep cx i fuel st _ hout]
  · rw [runFromWith_err attemptStep cx i fuel st _ hout]
    show countSend (attemptStepWith backoff cx i st).evs = 1
    rw [heq]
    rw [(sendAndHandle_429_noauth backoff cx i st2 evs1 hstat hv hl).2, hcnt]

/-- Concrete instance of C1: a single 429 response with no "Via" header,
three attempts allowed. -/
theorem c1_witness :
    (attemptStep ⟨"GET", "/gateway", [], 3, BASE_URL, [],
        fun _ => ⟨429, ⟨none, none, none⟩, some false, some 1⟩, "/gateway/::", []⟩ 0
        ⟨⟨none, none, none, none⟩, [], false, true, []⟩).out =
      .err (.httpError ⟨429, ⟨none, none, none⟩, some false, some 1⟩) ∧
    (runFromWith attemptStep ⟨"GET", "/gateway", [], 3, BASE_URL, [],
        fun _ => ⟨429, ⟨none, none, none⟩, some false, some 1⟩, "/gateway/::", []⟩ 0
        (2 + 1) ⟨⟨none, none, none, none⟩, [], false, true, []⟩).res =
      .raised (.httpError ⟨429, ⟨none, none, none⟩, some false, some 1⟩) ∧
    countSend (runFromWith attemptStep ⟨"GET", "/gateway", [], 3, BASE_URL, [],
        fun _ => ⟨429, ⟨none, none, none⟩, some false, some 1⟩, "/gateway/::", []⟩ 0
        (2 + 1) ⟨⟨none, none, none, none⟩, [], false, true, []⟩).evs = 1 :=
  c1_unauthoritative_429_fails_immediately _ 0 2 _ rfl rfl rfl

/-- C9: removing the `elif status >= 500` exponential backoff branch does
not change the dispatcher at all — on every attempt, for every state and
every response oracle, the branch is dead because it sits under the
enclosing `status == 429` test and `429 < 500`. -/
theorem c9_backoff_branch_unreachable (cx : Ctx) (i : Nat) (st : St) :
    attemptStep cx i st = attemptStepNoBackoff cx i st := by
  have hb : ∀ j rl, backoff 429 j rl = noBackoff 429 j rl := by
    intro j rl
    simp [backoff, noBackoff]
  have hr : ∀ r st2 evs, handleResponseWith backoff cx i r st2 evs =
      handleResponseWith noBackoff cx i r st2 evs := by
    intro r st2 evs
    unfold handleResponseWith
    split_ifs <;> try rfl
    rw [(by assumption : r.status = 429), hb]
  have hs : ∀ st2 evs, sendAndHandleWith backoff cx i st2 evs =
      sendAndHandleWith noBackoff cx i st2 evs := by
    intro st2 evs
    unfold sendAndHandleWith
    rw [hr]
  show attemptStepWith backoff cx i st = attemptStepWith noBackoff cx i st
  rcases hf : st.kwargs.files with _ | fs
  · simp only [attemptStepWith, hf, hs]
  · match fs with
    | [] => simp only [attemptStepWith, hf, hs]
    | f :: rest =>
      simp only [attemptStepWith, hf]
      by_cases hi : i ≠ 0
      · simp only [if_pos hi]
      · simp only [if_neg hi]
        rcases haf : addFileFields 0 (f :: rest) with e | flds <;>
          simp only [haf, hs]

/-- C2: an authoritative global 429 with `retry_after = d` clears the
global gate, schedules its reopening after `d` seconds, and — unless this
is the last allowed attempt — the attempt falls through so the loop
proceeds to the next attempt instead of returning or raising. -/
theorem c2_global_429_closes_gate_and_retries (cx : Ctx) (i fuel : Nat)
    (st : St) (d : Rat)
    (hstat : (cx.responses i).status = 429)
    (hvia : viaFalsy (cx.responses i).headers.via = false)
    (hglob : (cx.responses i).bodyGlobal = some true)
    (hra : (cx.responses i).bodyRetryAfter = some d)
    (hfiles : filesOk i st.kwargs = true) :
    (attemptStep cx i st).st.gateSet = false ∧
    (∃ a b, (attemptStep cx i st).evs =
      a ++ Event.gateClear :: Event.callLaterGateSet d :: b) ∧
    (i ≠ cx.retries - 1 →
      (attemptStep cx i st).out = .next ∧
      runFromWith attemptStep cx i (fuel + 1) st =
        ⟨(runFromWith attemptStep cx (i + 1) fuel (attemptStep cx i st).st).res,
         (runFromWith attemptStep cx (i + 1) fuel (attemptStep cx i st).st).st,
         (attemptStep cx i st).evs ++
           (runFromWith attemptStep cx (i + 1) fuel (attemptStep cx i st).st).evs⟩) := by
  obtain ⟨st2, evs1, heq, hl, -, -⟩ :=
    attemptStep_reaches_send backoff cx i st hfiles
  have hres : attemptStep cx i st =
      ⟨.next, { sendSt cx st2 with gateSet := false },
        (evs1 ++ [sendEv cx st2]) ++ [Event.gateClear, Event.callLaterGateSet d,
          Event.callLaterRelease cx.bucket (if i = cx.retries - 1 then 0 else d)]⟩ := by
    show attemptStepWith backoff cx i st = _
    rw [heq]
    unfold sendAndHandleWith
    rw [handleResponse_429_global backoff cx i _ _ _ d hstat hvia hglob hra
      (show (sendSt cx st2).locked = true from hl)]
  refine ⟨by rw [hres], ⟨evs1 ++ [sendEv cx st2],
    [Event.callLaterRelease cx.bucket (if i = cx.retries - 1 then 0 else d)],
    by rw [hres]⟩, fun hlast => ⟨by rw [hres], ?_⟩⟩
  exact runFromWith_next attemptStep cx i fuel st (by rw [hres])

/-- Concrete instance of C2: first of three attempts, global 429 with
`retry_after = 5`. -/
def c2cx : Ctx :=
  ⟨"GET", "/g", [], 3, BASE_URL, [],
    fun _ => ⟨429, ⟨none, none, some "1.1 edge"⟩, some true, some 5⟩,
    "/g/::", []⟩

theorem c2_witness :
    (attemptStep c2cx 0 ⟨⟨none, none, none, none⟩, [], false, true, []⟩).st.gateSet = false ∧
    (∃ a b, (attemptStep c2cx 0 ⟨⟨none, none, none, none⟩, [], false, true, []⟩).evs =
      a ++ Event.gateClear :: Event.callLaterGateSet 5 :: b) ∧
    (0 ≠ c2cx.retries - 1 →
      (attemptStep c2cx 0 ⟨⟨none, none, none, none⟩, [], false, true, []⟩).out = .next ∧
      runFromWith attemptStep c2cx 0 (1 + 1)
          ⟨⟨none, none, none, none⟩, [], false, true, []⟩ =
        ⟨(runFromWith attemptStep c2cx (0 + 1) 1
            (attemptStep c2cx 0 ⟨⟨none, none, none, none⟩, [], false, true, []⟩).st).res,
         (runFromWith attemptStep c2cx (0 + 1) 1
            (attemptStep c2cx 0 ⟨⟨none, none, none, none⟩, [], false, true, []⟩).st).st,
         (attemptStep c2cx 0 ⟨⟨none, none, none, none⟩, [], false, true, []⟩).evs ++
           (runFromWith attemptStep c2cx (0 + 1) 1
             (attemptStep c2cx 0 ⟨⟨none, none, none, none⟩, [], false, true, []⟩).st).evs⟩) :=
  c2_global_429_closes_gate_and_retries c2cx 0 1 _ 5 rfl rfl rfl rfl rfl

/-- C5: on a response that is not a 429 and whose "remaining" header reads
0, the deferred bucket release is scheduled after the "reset-after" header
value; when the response is a 2xx it is still returned to the caller at
once (the attempt ends in a `return`, only the lock release is delayed). -/
theorem c5_remaining_zero_schedules_reset_after (cx : Ctx) (i : Nat)
    (st : St) (ra : Rat) (hstat : (cx.responses i).status ≠ 429)
    (hrem : (cx.responses i).headers.rlRemaining = some 0)
    (hra : (cx.responses i).headers.rlResetAfter = some ra)
    (hfiles : filesOk i st.kwargs = true) :
    (attemptStep cx i st).evs.getLast? =
      some (Event.callLaterRelease cx.bucket ra) ∧
    (200 ≤ (cx.responses i).status ∧ (cx.responses i).status < 300 →
      (attemptStep cx i st).out = .ret (cx.responses i)) := by
  obtain ⟨st2, evs1, heq, hl, -, -⟩ :=
    attemptStep_reaches_send backoff cx i st hfiles
  have hres : attemptStep cx i st =
      ⟨if 200 ≤ (cx.responses i).status ∧ (cx.responses i).status < 300 then
          .ret (cx.responses i) else .next, sendSt cx st2,
        (evs1 ++ [sendEv cx st2]) ++ [Event.callLaterRelease cx.bucket ra]⟩ := by
    show attemptStepWith backoff cx i st = _
    rw [heq]
    unfold sendAndHandleWith
    rw [handleResponse_success_throttle backoff cx i _ _ _ ra hstat hrem hra
      (show (sendSt cx st2).locked = true from hl)]
  constructor
  · rw [hres]
    exact getLast?_snoc _ _
  · intro h2
    rw [hres]
    show (if _ then _ else _) = Outcome.ret (cx.responses i)
    rw [if_pos h2]

/-- Concrete instance of C5: a 2xx with `remaining = 0`,
`reset-after = 5/2`. -/
def c5cx : Ctx :=
  ⟨"GET", "/ch", [], 3, BASE_URL, [],
    fun _ => ⟨200, ⟨some (5 / 2), some 0, none⟩, none, none⟩, "/ch/::", []⟩

theorem c5_witness :
    (attemptStep c5cx 0 ⟨⟨none, none, none, none⟩, [], false, true, []⟩).evs.getLast? =
      some (Event.callLaterRelease c5cx.bucket (5 / 2)) ∧
    (200 ≤ (c5cx.responses 0).status ∧ (c5cx.responses 0).status < 300 →
      (attemptStep c5cx 0 ⟨⟨none, none, none, none⟩, [], false, true, []⟩).out =
        .ret (c5cx.responses 0)) :=
  c5_remaining_zero_schedules_reset_after c5cx 0 _ (5 / 2) (by decide) rfl rfl rfl

/-- C6: whatever way an attempt ends — returning the response, raising, or
falling through to the next iteration — its very last recorded effect is a
`call_later` scheduling of the bucket lock release (emitted only with the
lock held, which it always is at that point), and the lock is still held
when the attempt ends: even a zero delay defers the release to the
scheduler rather than releasing inline. The hypothesis is the wire
contract: an authoritative 429 body carries `retry_after`. -/
theorem c6_release_always_deferred (cx : Ctx) (i : Nat) (st : St)
    (hra : (cx.responses i).status = 429 →
      viaFalsy (cx.responses i).headers.via = false →
      ((cx.responses i).bodyRetryAfter).isSome = true) :
    ∃ d, (attemptStep cx i st).evs.getLast? =
        some (Event.callLaterRelease cx.bucket d) ∧
      (attemptStep cx i st).st.locked = true := by
  show ∃ d, (attemptStepWith backoff cx i st).evs.getLast? = _ ∧
    (attemptStepWith backoff cx i st).st.locked = true
  rcases hf : st.kwargs.files with _ | fs
  · simp only [attemptStepWith, hf]
    unfold sendAndHandleWith
    exact handleResponse_release cx i _ _ _ rfl hra
  · match fs with
    | [] =>
      simp only [attemptStepWith, hf]
      unfold sendAndHandleWith
      exact handleResponse_release cx i _ _ _ rfl hra
    | f :: rest =>
      simp only [attemptStepWith, hf]
      by_cases hi : i ≠ 0
      · simp only [if_pos hi]
        rw [finishAttempt_some_release _ _ _ _ _
          (show (postAcquire cx st).locked = true from rfl)]
        exact ⟨0, getLast?_snoc _ _, rfl⟩
      · simp only [if_neg hi]
        rcases haf : addFileFields 0 (f :: rest) with e | flds <;> simp only [haf]
        · rw [finishAttempt_some_release _ _ _ _ _
            (show (postAcquire cx st).locked = true from rfl)]
          exact ⟨0, getLast?_snoc _ _, rfl⟩
        · unfold sendAndHandleWith
          exact handleResponse_release cx i _ _ _ rfl hra

/-- Concrete instance of C6: the files `TypeError` path, where the raise
still goes through `finally` and the deferred release is scheduled. -/
def c6cx : Ctx :=
  ⟨"POST", "/c", [], 3, BASE_URL, [5],
    fun _ => ⟨200, ⟨none, none, none⟩, none, none⟩, "/c/::", []⟩

theorem c6_witness :
    ∃ d, (attemptStep c6cx 0
        ⟨⟨some [.file ⟨0, "a"⟩, .other "int"], none, none, none⟩,
          [0], false, true, []⟩).evs.getLast? =
          some (Event.callLaterRelease c6cx.bucket d) ∧
      (attemptStep c6cx 0
        ⟨⟨some [.file ⟨0, "a"⟩, .other "int"], none, none, none⟩,
          [0], false, true, []⟩).st.locked = true :=
  c6_release_always_deferred c6cx 0 _ (by decide)

/-- Sends in a concatenated trace add up. -/
theorem countSend_append (a b : List Event) :
    countSend (a ++ b) = countSend a + countSend b := by
  simp [countSend, List.filter_append]

/-- C8: a `files` list containing a non `File` element makes the first
attempt raise `TypeError` before any network send, and the whole call
raises with zero sends performed — no retry happens. -/
theorem c8_non_file_raises_before_send (cx : Ctx) (fuel : Nat) (st : St)
    (fs : List FileArg) (hf : st.kwargs.files = some fs)
    (hbad : ∃ f ∈ fs, f.isFile = false) :
    ∃ m, (attemptStep cx 0 st).out = .err (.typeError m) ∧
      countSend (attemptStep cx 0 st).evs = 0 ∧
      (runFromWith attemptStep cx 0 (fuel + 1) st).res = .raised (.typeError m) ∧
      countSend (runFromWith attemptStep cx 0 (fuel + 1) st).evs = 0 := by
  match fs, hbad with
  | [], ⟨x, hx, _⟩ => simp at hx
  | f :: rest, hbad =>
    obtain ⟨m, hm⟩ := addFileFields_err (f :: rest) hbad 0
    have hres : attemptStep cx 0 st =
        ⟨.err (.typeError m), postAcquire cx st,
          acquireEvs cx st ++ [Event.callLaterRelease cx.bucket 0]⟩ := by
      show attemptStepWith backoff cx 0 st = _
      simp only [attemptStepWith, hf, if_neg (show ¬(0 ≠ 0) from by omega), hm]
      rw [finishAttempt_some_release _ _ _ _ _
        (show (postAcquire cx st).locked = true from rfl)]
    have hcnt : countSend (attemptStep cx 0 st).evs = 0 := by
      rw [hres]
      show countSend (acquireEvs cx st ++ [Event.callLaterRelease cx.bucket 0]) = 0
      rw [countSend_append, countSend_acquireEvs]
      rfl
    have hout : (attemptStep cx 0 st).out = .err (.typeError m) := by rw [hres]
    refine ⟨m, hout, hcnt, ?_, ?_⟩
    · rw [runFromWith_err attemptStep cx 0 fuel st _ hout]
    · rw [runFromWith_err attemptStep cx 0 fuel st _ hout]
      exact hcnt

/-- Concrete instance of C8: `files = [File(...), 5]`, three attempts
allowed. -/
def c8cx : Ctx :=
  ⟨"POST", "/c", [], 3, BASE_URL, [5],
    fun _ => ⟨200, ⟨none, none, none⟩, none, none⟩, "/c/::", []⟩

theorem c8_witness :
    ∃ m, (attemptStep c8cx 0
        ⟨⟨some [.file ⟨0, "a"⟩, .other "int"], none, none, none⟩,
          [0], false, true, []⟩).out = .err (.typeError m) ∧
      countSend (attemptStep c8cx 0
        ⟨⟨some [.file ⟨0, "a"⟩, .other "int"], none, none, none⟩,
          [0], false, true, []⟩).evs = 0 ∧
      (runFromWith attemptStep c8cx 0 (2 + 1)
        ⟨⟨some [.file ⟨0, "a"⟩, .other "int"], none, none, none⟩,
          [0], false, true, []⟩).res = .raised (.typeError m) ∧
      countSend (runFromWith attemptStep c8cx 0 (2 + 1)
        ⟨⟨some [.file ⟨0, "a"⟩, .other "int"], none, none, none⟩,
          [0], false, true, []⟩).evs = 0 :=
  c8_non_file_raises_before_send c8cx 2 _ [.file ⟨0, "a"⟩, .other "int"] rfl
    ⟨.other "int", by decide, rfl⟩

/-- An attempt hitting an authoritative 429 with a `retry_after` value
falls through, scheduling the release after `retry_after` — or after `0`
when it is the last allowed attempt. -/
theorem attemptStep_retryable_429 (cx : Ctx) (i : Nat) (st : St) (d : Rat)
    (hstat : (cx.responses i).status = 429)
    (hvia : viaFalsy (cx.responses i).headers.via = false)
    (hra : (cx.responses i).bodyRetryAfter = some d)
    (hfiles : filesOk i st.kwargs = true) :
    (attemptStep cx i st).out = .next ∧
    (attemptStep cx i st).evs.getLast? =
      some (Event.callLaterRelease cx.bucket
        (if i = cx.retries - 1 then 0 else d)) := by
  obtain ⟨st2, evs1, heq, hl, -, -⟩ :=
    attemptStep_reaches_send backoff cx i st hfiles
  have h := handleResponse_429_auth_retry cx i (cx.responses i) (sendSt cx st2)
    (evs1 ++ [sendEv cx st2]) d hstat hvia hra
    (show (sendSt cx st2).locked = true from hl)
  constructor
  · show (attemptStepWith backoff cx i st).out = _
    rw [heq]
    unfold sendAndHandleWith
    exact h.1
  · show (attemptStepWith backoff cx i st).evs.getLast? = _
    rw [heq]
    unfold sendAndHandleWith
    exact h.2

/-- The retry loop from iteration `i`, when every remaining attempt hits a
retryable authoritative 429, exhausts its range, ends with no result, and
its very last effect is the release scheduled with the delay reset to 0 on
the final iteration. -/
theorem runFrom_retryable_aux (cx : Ctx) : ∀ fuel i st, i + fuel = cx.retries →
    1 ≤ fuel →
    (∀ j, j < cx.retries → (cx.responses j).status = 429 ∧
      viaFalsy (cx.responses j).headers.via = false ∧
      ((cx.responses j).bodyRetryAfter).isSome = true) →
    filesOk i st.kwargs = true →
    (runFromWith attemptStep cx i fuel st).res = .fellThrough ∧
    (runFromWith attemptStep cx i fuel st).evs.getLast? =
      some (Event.callLaterRelease cx.bucket 0) := by
  intro fuel
  induction fuel with
  | zero => intro i st _ h1 _ _; omega
  | succ f ih =>
    intro i st hif h1 hresp hfiles
    obtain ⟨hs, hv, hr⟩ := hresp i (by omega)
    obtain ⟨d, hd⟩ := Option.isSome_iff_exists.mp hr
    obtain ⟨hout, hlast⟩ := attemptStep_retryable_429 cx i st d hs hv hd hfiles
    match f with
    | 0 =>
      have hi : i = cx.retries - 1 := by omega
      rw [runFromWith_next attemptStep cx i 0 st hout]
      refine ⟨rfl, ?_⟩
      show ((attemptStep cx i st).evs ++
        (runFromWith attemptStep cx (i + 1) 0 (attemptStep cx i st).st).evs).getLast? = _
      rw [show (runFromWith attemptStep cx (i + 1) 0
        (attemptStep cx i st).st).evs = [] from rfl, List.append_nil, hlast, if_pos hi]
    | f' + 1 =>
      have hfilesPost : filesOk (i + 1) (attemptStep cx i st).st.kwargs = true := by
        unfold filesOk
        rw [show (attemptStep cx i st).st.kwargs.files = none from
          attemptStep_files_none backoff cx i st]
      have post := ih (i + 1) (attemptStep cx i st).st (by omega) (by omega)
        hresp hfilesPost
      rw [runFromWith_next attemptStep cx i (f' + 1) st hout]
      exact ⟨post.1, getLast?_append_right _ _ _ post.2⟩

/-- C4: when every one of the `retries` attempts hits the retryable
authoritative 429 path (global or not), the call ends with no result — the
dispatcher falls off the loop and implicitly returns `None` instead of
raising — and the very last effect is the bucket release scheduled with
delay 0, the reset performed on the last allowed attempt. -/
theorem c4_exhausted_retryable_429_returns_nothing (cx : Ctx) (st0 : St)
    (hret : 1 ≤ cx.retries)
    (hresp : ∀ j, j < cx.retries → (cx.responses j).status = 429 ∧
      viaFalsy (cx.responses j).headers.via = false ∧
      ((cx.responses j).bodyRetryAfter).isSome = true)
    (hfiles : filesOk 0 st0.kwargs = true) :
    (run cx st0).res = .fellThrough ∧
    (run cx st0).evs.getLast? = some (Event.callLaterRelease cx.bucket 0) :=
  runFrom_retryable_aux cx cx.retries 0 st0 (by omega) hret hresp hfiles

/-- Concrete instance of C4: two attempts, both hitting a non global
authoritative 429 with `retry_after = 1`. -/
def c4cx : Ctx :=
  ⟨"GET", "/g", [], 2, BASE_URL, [],
    fun _ => ⟨429, ⟨none, none, some "1.1 api"⟩, some false, some 1⟩,
    "/g/::", []⟩

theorem c4_witness :
    (run c4cx ⟨⟨none, none, none, none⟩, [], false, true, []⟩).res =
      .fellThrough ∧
    (run c4cx ⟨⟨none, none, none, none⟩, [], false, true, []⟩).evs.getLast? =
      some (Event.callLaterRelease c4cx.bucket 0) :=
  c4_exhausted_retryable_429_returns_nothing c4cx _ (by decide)
    (fun j _ => ⟨rfl, rfl, rfl⟩) rfl

/-- C10: calling `request` with `path_params` left at its `None` default
raises `AttributeError` inside `_get_bucket` (calling `.get` on `None`)
before anything else happens: no bucket lock is created or acquired, no
gate wait, no network send — the trace is empty and the state untouched. -/
theorem c10_none_path_params_attribute_error (method path : String)
    (retries : Nat) (url : String) (kwargs : Kwargs) (sizes : List Nat)
    (responses : Nat → Response) (st0 : St) :
    requestCall method path none retries url kwargs sizes responses st0 =
      ⟨.raised (.attributeError "get"), st0, []⟩ := rfl

/-- The failing call of C3: `retries = 2`, one 5 byte attachment, the
first response an authoritative non global 429 (`retry_after = 1`), the
second a 2xx. -/
def c3cx : Ctx :=
  ⟨"POST", "/c", [], 2, BASE_URL, [5],
    fun j => if j = 0 then ⟨429, ⟨none, none, some "1.1 api"⟩, some false, some 1⟩
      else ⟨200, ⟨none, none, none⟩, none, none⟩,
    "/c/::", []⟩

/-- Initial state of the failing call of C3: the attachment stream starts at
position 0, per the caller contract. -/
def c3st0 : St :=
  ⟨⟨some [.file ⟨0, "a.txt"⟩], none, none, none⟩, [0], false, true, []⟩

/-- C3 (evidence of the divergence): on the failing input, attempt 0 takes
the retryable path after consuming the stream to its end, and — because
`kwargs.pop("files", [])` removed the key on attempt 0 — the retry
(attempt 1) starts with the stream still at position 5, not 0, performs no
rewind whatsoever, and re-sends the stale multipart payload built on
attempt 0 unchanged: its full trace is acquire, gate wait, a send carrying
the attempt 0 form, and the deferred release. (A rewind could not even
succeed: `file.seek(0)` targets the `microcord.File` wrapper, which has no
`seek` method.) -/
theorem c3_stream_not_rewound_on_retry :
    (attemptStep c3cx 0 c3st0).out = .next ∧
    (attemptStep c3cx 0 c3st0).st.kwargs.files = none ∧
    (attemptStep c3cx 0 c3st0).st.kwargs.data =
      some ⟨[("file_0", .fileRef 0 "a.txt")]⟩ ∧
    (attemptStep c3cx 0 c3st0).st.pos = [5] ∧
    (attemptStep c3cx 1 (attemptStep c3cx 0 c3st0).st).evs =
      [Event.lockAcquire "/c/::", Event.gateWait,
       Event.send "POST" (BASE_URL ++ "/c") []
         (some ⟨[("file_0", .fileRef 0 "a.txt")]⟩) none,
       Event.callLaterRelease "/c/::" 0] ∧
    (attemptStep c3cx 1 (attemptStep c3cx 0 c3st0).st).st.pos = [5] := by
  decide

/-! ### C7: the global gate under repeated closures -/

/-- C7 (counterexample): close the gate at time 0 for 10 seconds, then —
while that closure is still pending — close it again at time 1 for 20
seconds. The claim says the reopen is rescheduled so the gate reopens at
the time set by the last close (1 + 20 = 21) with exactly one pending
timer. In fact nothing cancels the first timer: the gate is already open
at time 10 (before 21), and at time 5 two reopen timers are pending. -/
theorem c7_counterexample :
    gateOpenAt [((0 : Rat), 10), (1, 20)] 10 = true ∧
    (10 : Rat) < 1 + 20 ∧
    (pendingTimers [((0 : Rat), 10), (1, 20)] 5).length = 2 := by
  refine ⟨?_, by norm_num, ?_⟩
  · unfold gateOpenAt
    norm_num [List.filter_cons, List.filter_nil, List.all_cons, List.all_nil,
      List.any_cons, List.any_nil]
  · unfold pendingTimers
    norm_num [List.filter_cons, List.filter_nil]

/-- C7 (amended): when a second close happens at `t2` while the close from
`t1` is still pending, both `set` timers stay scheduled: at `t2` two
timers are pending, and for any later time `t` the gate is open iff the
earliest of the two timers has fired — `min (t1+d1) (t2+d2) ≤ t` — which
can be strictly earlier than the reopen time the last close asked for. -/
theorem c7_amended_earliest_timer_reopens (t1 d1 t2 d2 t : Rat)
    (h12 : t1 < t2) (hpend : t2 < t1 + d1) (hd2 : 0 < d2) (ht : t2 ≤ t) :
    (gateOpenAt [(t1, d1), (t2, d2)] t = true ↔ min (t1 + d1) (t2 + d2) ≤ t) ∧
    pendingTimers [(t1, d1), (t2, d2)] t2 = [t1 + d1, t2 + d2] := by
  have ht1 : t1 ≤ t := le_of_lt (lt_of_lt_of_le h12 ht)
  constructor
  · unfold gateOpenAt
    simp only [List.filter_cons, List.filter_nil, decide_eq_true_eq, ht1, ht,
      if_true, List.all_cons, List.all_nil, List.any_cons, List.any_nil,
      Bool.and_eq_true, Bool.or_eq_true, and_true, decide_eq_true_eq]
    rw [min_le_iff]
    constructor
    · rintro ⟨-, h⟩
      rcases h with ⟨-, h⟩ | ⟨-, h⟩ | h
      · exact Or.inl h
      · exact Or.inr h
      · simp at h
    · rintro (h | h)
      · exact ⟨Or.inl ⟨by linarith, h⟩, Or.inl ⟨hpend, h⟩⟩
      · exact ⟨Or.inr (Or.inl ⟨by linarith, h⟩), Or.inr (Or.inl ⟨by linarith, h⟩)⟩
  · unfold pendingTimers
    simp only [List.filter_cons, List.filter_nil, decide_eq_true_eq]
    rw [if_pos ⟨le_of_lt h12, hpend⟩, if_pos ⟨le_refl t2, by linarith⟩]
    rfl

/-- Concrete instance of the amended C7, at the numbers of the counterexample:
closes at 0 for 10 and at 1 for 20, observed at time 10. -/
theorem c7_amended_witness :
    (gateOpenAt [((0 : Rat), 10), (1, 20)] 10 = true ↔
      min ((0 : Rat) + 10) (1 + 20) ≤ 10) ∧
    pendingTimers [((0 : Rat), 10), (1, 20)] 1 = [0 + 10, 1 + 20] :=
  c7_amended_earliest_timer_reopens 0 10 1 20 10 (by norm_num) (by norm_num)
    (by norm_num) (by norm_num)

end Microcord
